import Mathlib

/-!
Verification of the survey-collection REST API of the dataSetsRX repository
(`server.js`, simple SQLite variant).  The development shallowly embeds:

* the Joi submission schema `surveySchema` and its `validate` call
  (Joi's default `abortEarly` behaviour: validation stops at the first
  failing field);
* the SQLite store as an explicit state (`DB`): a list of `surveys` rows and
  a list of `responses` rows, written by the `POST /api/surveys` handler and
  read by the `GET` handlers;
* the four read/write endpoints: submit (`POST /api/surveys`),
  `getById` (`GET /api/surveys/:surveyId`),
  `listByStudy` (`GET /api/studies/:studyId/surveys`) and
  `exportByStudy` (`GET /api/studies/:studyId/export`).

Storage failures of individual `db.run` INSERT calls are modelled by an
explicit failure schedule (`failHeader`, `failResp`), so the persistence
behaviour of a partially failing submission is observable in the model.
-/

namespace DataSetsRX

/-- JSON-like runtime values: the shapes a survey answer can take after
`express.json` parsing (string, number, boolean, array), plus `null`, which
appears in LEFT JOIN result rows.  JS numbers are modelled as integers;
no claim depends on non-integral numerics.  Nested plain objects are not
modelled: `Joi.alternatives().try(string, number, boolean, array)` rejects
them, and no claim mentions them. -/
inductive JsonVal where
  | str (s : String)
  | num (n : Int)
  | bool (b : Bool)
  | arr (elems : List JsonVal)
  | null
deriving Repr

/-- Escape of a single character inside a JSON string literal, as performed
by `JSON.stringify`.  Control characters other than newline, tab and
carriage return are not modelled (no stored value in any claim contains
them). -/
def jsonEscapeChar (c : Char) : List Char :=
  if c = '"' then ['\\', '"']
  else if c = '\\' then ['\\', '\\']
  else if c = '\n' then ['\\', 'n']
  else if c = '\t' then ['\\', 't']
  else if c = '\r' then ['\\', 'r']
  else [c]

/-- Escape of every character of a JSON string literal body. -/
def jsonEscapeList : List Char → List Char
  | [] => []
  | c :: cs => jsonEscapeChar c ++ jsonEscapeList cs

mutual

/-- Embedding of `JSON.stringify` on the modelled value shapes.  This is the
serialized text stored in the `answer` column (`JSON.stringify(response.answer)`
in the submit handler) and re-produced by the CSV exporter for array
answers. -/
def stringify : JsonVal → String
  | .str s => "\"" ++ String.mk (jsonEscapeList s.data) ++ "\""
  | .num n => toString n
  | .bool b => if b then "true" else "false"
  | .arr xs => "[" ++ String.intercalate "," (stringifyList xs) ++ "]"
  | .null => "null"

/-- Serialization of every element of a JSON array, in order. -/
def stringifyList : List JsonVal → List String
  | [] => []
  | v :: vs => stringify v :: stringifyList vs

end

/-- One entry of the `responses` array of an incoming request body, before
validation: every field may be absent (`undefined` in JS). -/
structure EntryPayload where
  questionId : Option Int
  question : Option String
  answer : Option JsonVal
  responseType : Option String

/-- Optional `metadata` block of an incoming request body. -/
structure MetadataPayload where
  completedAt : Option String
  deviceInfo : Option String
  location : Option String

/-- An incoming `POST /api/surveys` request body, before validation. -/
structure Payload where
  patientId : Option String
  studyId : Option String
  responses : Option (List EntryPayload)
  metadata : Option MetadataPayload

/-- Validation errors producible by `surveySchema`.  Entry-level errors
carry the index of the offending entry in the `responses` array. -/
inductive ValErr where
  | patientIdRequired
  | patientIdEmpty
  | studyIdRequired
  | studyIdEmpty
  | responsesRequired
  | questionIdRequired (i : Nat)
  | questionIdRange (i : Nat)
  | questionRequired (i : Nat)
  | questionEmpty (i : Nat)
  | answerRequired (i : Nat)
  | answerShape (i : Nat)
  | responseTypeRequired (i : Nat)
  | responseTypeInvalid (i : Nat)
  | responsesLength (n : Nat)
  | deviceInfoEmpty
  | locationEmpty
deriving Repr, DecidableEq

/-- The `responseType` enumeration of `surveySchema`:
`Joi.string().valid('text', 'number', 'boolean', 'scale', 'multiple_choice')`.
Note: the source list has five members; it does not contain `checkbox`. -/
def allowedResponseTypes : List String :=
  ["text", "number", "boolean", "scale", "multiple_choice"]

/-- Shape test for `Joi.alternatives().try(Joi.string(), Joi.number(),
Joi.boolean(), Joi.array())`: every modelled value shape except `null`
matches one of the four alternatives. -/
def isJoiAnswer : JsonVal → Bool
  | .null => false
  | _ => true

/-- All schema violations of one `responses` entry, in the order the fields
are declared in `surveySchema`: `questionId` (integer 1..20, required),
`question` (non-empty string, required), `answer` (one of the four
alternatives, required), `responseType` (member of the enumeration,
required). -/
def entryErrors (i : Nat) (e : EntryPayload) : List ValErr :=
  (match e.questionId with
    | none => [.questionIdRequired i]
    | some q => if 1 ≤ q ∧ q ≤ 20 then [] else [.questionIdRange i]) ++
  (match e.question with
    | none => [.questionRequired i]
    | some s => if s = "" then [.questionEmpty i] else []) ++
  (match e.answer with
    | none => [.answerRequired i]
    | some v => if isJoiAnswer v then [] else [.answerShape i]) ++
  (match e.responseType with
    | none => [.responseTypeRequired i]
    | some t => if t ∈ allowedResponseTypes then [] else [.responseTypeInvalid i])

/-- Violations of all entries from index `i` on, in order. -/
def entryErrorsFrom (i : Nat) : List EntryPayload → List ValErr
  | [] => []
  | e :: es => entryErrors i e ++ entryErrorsFrom (i + 1) es

/-- Violations of the `patientId` field (`Joi.string().required()`; Joi
rejects the empty string). -/
def checkPatientId (p : Payload) : List ValErr :=
  match p.patientId with
  | none => [.patientIdRequired]
  | some s => if s = "" then [.patientIdEmpty] else []

/-- Violations of the `studyId` field (`Joi.string().required()`). -/
def checkStudyId (p : Payload) : List ValErr :=
  match p.studyId with
  | none => [.studyIdRequired]
  | some s => if s = "" then [.studyIdEmpty] else []

/-- Violations of the `responses` field: per-entry item violations followed
by the `.length(20)` rule.  The Joi schema places no uniqueness constraint
on `questionId` across entries, so no duplicate-index violation exists. -/
def checkResponses (p : Payload) : List ValErr :=
  match p.responses with
  | none => [.responsesRequired]
  | some rs =>
      entryErrorsFrom 0 rs ++ (if rs.length = 20 then [] else [.responsesLength rs.length])

/-- Violations of the optional `metadata` block.  The object is optional;
`deviceInfo` and `location` are optional strings (Joi rejects an empty
string when the key is present).  The `Joi.date().iso()` format check on
`completedAt` is not modelled: no claim depends on rejecting a malformed
timestamp. -/
def checkMetadata (p : Payload) : List ValErr :=
  match p.metadata with
  | none => []
  | some m =>
      (if m.deviceInfo = some "" then [.deviceInfoEmpty] else []) ++
      (if m.location = some "" then [.locationEmpty] else [])

/-- Every violation of the full submission contract, in schema declaration
order.  This is the reference enumeration the spec asks the validator to
report in full. -/
def allViolations (p : Payload) : List ValErr :=
  checkPatientId p ++ checkStudyId p ++ checkResponses p ++ checkMetadata p

/-- One validated `responses` entry of the Joi output `value`. -/
structure ValidEntry where
  questionId : Int
  question : String
  answer : JsonVal
  responseType : String

/-- The Joi output `value` of a successful validation. -/
structure ValidSubmission where
  patientId : String
  studyId : String
  responses : List ValidEntry
  metadata : Option MetadataPayload

/-- Conversion of a payload entry to its validated form.  The defaults are
irrelevant: the conversion is only applied to entries that passed every
presence check. -/
def mkValidEntry (e : EntryPayload) : ValidEntry :=
  ⟨e.questionId.getD 0, e.question.getD "", e.answer.getD .null, e.responseType.getD ""⟩

/-- Conversion of a whole payload to the Joi output `value`. -/
def mkValid (p : Payload) : ValidSubmission :=
  ⟨p.patientId.getD "", p.studyId.getD "", (p.responses.getD []).map mkValidEntry, p.metadata⟩

/-- Embedding of `surveySchema.validate(req.body)` with Joi's default
options, in particular `abortEarly: true`: validation stops at the first
failing field, and `error.details` carries that single error.  Fields are
checked in schema declaration order. -/
def surveySchemaValidate (p : Payload) : Except (List ValErr) ValidSubmission :=
  match checkPatientId p with
  | e :: _ => .error [e]
  | [] =>
    match checkStudyId p with
    | e :: _ => .error [e]
    | [] =>
      match checkResponses p with
      | e :: _ => .error [e]
      | [] =>
        match checkMetadata p with
        | e :: _ => .error [e]
        | [] => .ok (mkValid p)

/-- One row of the `surveys` table.  The `metadata` column holds the
serialized text `JSON.stringify(metadata || {})`. -/
structure SurveyRow where
  survey_id : String
  patient_id : String
  study_id : String
  completed_at : String
  metadata : String
deriving Repr

/-- One row of the `responses` table.  The physical `answer` column holds
JSON text, written as `JSON.stringify(response.answer)`; every reader either
applies `JSON.parse` to it (getById, CSV export) or passes the text through
unchanged (JSON export).  The model stores the structured value and recovers
the stored text with `stringify` where the text itself is observable. -/
structure ResponseRow where
  response_id : String
  survey_id : String
  question_id : Int
  question_text : String
  answer : JsonVal
  response_type : String
deriving Repr

/-- The SQLite store state: contents of the two tables. -/
structure DB where
  surveys : List SurveyRow
  responses : List ResponseRow

/-- A store with no rows. -/
def emptyDB : DB := ⟨[], []⟩

/-- Numeric value of one decimal digit character. -/
def digitVal (c : Char) : Option Nat :=
  if '0' ≤ c ∧ c ≤ '9' then some (c.toNat - '0'.toNat) else none

/-- Value of a two-digit run. -/
def num2 (a b : Char) : Option Nat := do
  let x ← digitVal a
  let y ← digitVal b
  pure (10 * x + y)

/-- Value of a three-digit run. -/
def num3 (a b c : Char) : Option Nat := do
  let x ← digitVal a
  let yz ← num2 b c
  pure (100 * x + yz)

/-- Value of a four-digit run. -/
def num4 (a b c d : Char) : Option Nat := do
  let xy ← num2 a b
  let zw ← num2 c d
  pure (100 * xy + zw)

/-- Day count of the civil date (y, m, d) relative to 1970-01-01, by the
standard civil-calendar conversion.  For four-digit years every
intermediate quantity is a nonnegative integer, so Nat division agrees
with the reference computation. -/
def daysFromCivil (y m d : Nat) : Int :=
  let y2 := if m ≤ 2 then y - 1 else y
  let era := y2 / 400
  let yoe := y2 % 400
  let mp := (m + 9) % 12
  let doy := (153 * mp + 2) / 5 + d - 1
  let doe := yoe * 365 + yoe / 4 - yoe / 100 + doy
  ((era * 146097 + doe : Nat) : Int) - 719468

/-- Embedding of the JS Date parse (`new Date(t).getTime()`, the value Joi's
`date().iso()` conversion produces) on the canonical UTC timestamp layouts
`YYYY-MM-DDTHH:MM:SSZ` and `YYYY-MM-DDTHH:MM:SS.sssZ`: the epoch value in
milliseconds.  Other ISO-8601 layouts Joi accepts (numeric offsets,
date-only forms) are not modelled — no claim exercises them — and month
lengths are checked only up to 31 days. -/
def isoToMs (s : String) : Option Int :=
  match s.data with
  | [y1, y2, y3, y4, '-', m1, m2, '-', d1, d2, 'T',
     h1, h2, ':', i1, i2, ':', s1, s2, 'Z'] => do
    let y ← num4 y1 y2 y3 y4
    let m ← num2 m1 m2
    let d ← num2 d1 d2
    let h ← num2 h1 h2
    let mi ← num2 i1 i2
    let sec ← num2 s1 s2
    if 1 ≤ m ∧ m ≤ 12 ∧ 1 ≤ d ∧ d ≤ 31 ∧ h ≤ 23 ∧ mi ≤ 59 ∧ sec ≤ 59 then
      pure ((((daysFromCivil y m d * 24 + (h : Int)) * 60 + (mi : Int)) * 60 +
        (sec : Int)) * 1000)
    else none
  | [y1, y2, y3, y4, '-', m1, m2, '-', d1, d2, 'T',
     h1, h2, ':', i1, i2, ':', s1, s2, '.', f1, f2, f3, 'Z'] => do
    let y ← num4 y1 y2 y3 y4
    let m ← num2 m1 m2
    let d ← num2 d1 d2
    let h ← num2 h1 h2
    let mi ← num2 i1 i2
    let sec ← num2 s1 s2
    let frac ← num3 f1 f2 f3
    if 1 ≤ m ∧ m ≤ 12 ∧ 1 ≤ d ∧ d ≤ 31 ∧ h ≤ 23 ∧ mi ≤ 59 ∧ sec ≤ 59 then
      pure ((((daysFromCivil y m d * 24 + (h : Int)) * 60 + (mi : Int)) * 60 +
        (sec : Int)) * 1000 + (frac : Int))
    else none
  | _ => none

/-- Civil date of a day count relative to 1970-01-01 (inverse of
`daysFromCivil`), valid for years 0..9999, where the shifted day count is
nonnegative. -/
def civilFromDays (z : Int) : Nat × Nat × Nat :=
  let zn := (z + 719468).toNat
  let era := zn / 146097
  let doe := zn % 146097
  let yoe := (doe - doe / 1460 + doe / 36524 - doe / 146096) / 365
  let doy := doe - (365 * yoe + yoe / 4 - yoe / 100)
  let mp := (5 * doy + 2) / 153
  let d := doy - (153 * mp + 2) / 5 + 1
  let m := if mp < 10 then mp + 3 else mp - 9
  (yoe + era * 400 + (if m ≤ 2 then 1 else 0), m, d)

/-- Zero-padded decimal rendering of `n` to at least `width` digits. -/
def padNum (width n : Nat) : String :=
  let s := toString n
  String.mk (List.replicate (width - s.length) '0') ++ s

/-- Embedding of `Date.prototype.toISOString` (and hence of `toJSON`, the
rendering `JSON.stringify` applies to a Date): the normalized
`YYYY-MM-DDTHH:MM:SS.sssZ` text of an epoch-milliseconds value, valid for
dates in years 0..9999. -/
def msToIso (ms : Int) : String :=
  let day := Int.ediv ms 86400000
  let tod := (Int.emod ms 86400000).toNat
  let ymd := civilFromDays day
  padNum 4 ymd.1 ++ "-" ++ padNum 2 ymd.2.1 ++ "-" ++ padNum 2 ymd.2.2 ++ "T" ++
    padNum 2 (tod / 3600000) ++ ":" ++ padNum 2 (tod / 60000 % 60) ++ ":" ++
    padNum 2 (tod / 1000 % 60) ++ "." ++ padNum 3 (tod % 1000) ++ "Z"

/-- TEXT rendering of the epoch-milliseconds REAL that node-sqlite3 binds
for a JS Date value: SQLite's TEXT affinity renders the integral double
with a trailing `.0`, and every epoch value through year 9999 has at most
15 significant digits, so all its digits are printed. -/
def sqliteRealText (ms : Int) : String := toString ms ++ ".0"

/-- Value stored in the `completed_at` column:
`metadata?.completedAt || new Date().toISOString()`.  An absent metadata
block or absent `completedAt` stores the request-time ISO string verbatim.
A present `completedAt` survived `Joi.date().iso()` as a converted Date
object (always truthy, which decides the `||`); node-sqlite3 binds a Date
as an epoch-milliseconds REAL, and the TEXT-affinity column stores its
numeric text — not the submitted ISO string.  A timestamp outside the
layouts `isoToMs` parses cannot reach this point in the program (Joi
rejects non-dates); the model maps that unreachable case to the epoch-0
rendering. -/
def completedAtOf (md : Option MetadataPayload) (now : String) : String :=
  match md with
  | none => now
  | some m =>
    match m.completedAt with
    | none => now
    | some t => sqliteRealText ((isoToMs t).getD 0)

/-- Serialized text `JSON.stringify(metadata || {})` stored in the
`metadata` column: an object literal with the present keys in declaration
order.  The Joi-validated `completedAt` is a converted Date object, which
`JSON.stringify` renders via `toJSON` as the normalized ISO string with
milliseconds — not as the submitted text. -/
def metadataJson (md : Option MetadataPayload) : String :=
  match md with
  | none => "\x7b\x7d"
  | some m =>
    "\x7b" ++ String.intercalate ","
      ((match m.completedAt with
        | none => []
        | some t =>
            ["\"completedAt\":" ++ stringify (.str (msToIso ((isoToMs t).getD 0)))]) ++
       (match m.deviceInfo with
        | none => []
        | some d => ["\"deviceInfo\":" ++ stringify (.str d)]) ++
       (match m.location with
        | none => []
        | some l => ["\"location\":" ++ stringify (.str l)])) ++ "\x7d"

/-- The `responses` row written for one submitted entry. -/
def mkResponseRow (surveyId respId : String) (r : ValidEntry) : ResponseRow :=
  ⟨respId, surveyId, r.questionId, r.question, r.answer, r.responseType⟩

/-- Rows persisted by the per-entry `db.run` INSERT loop, starting at entry
index `i`.  The handler issues one INSERT per entry; an INSERT whose
callback reports an error persists nothing, every other INSERT persists its
row — there is no transaction, so earlier successful rows are not undone by
a later failure. -/
def insertedRows (surveyId : String) (respId : Nat → String) (failResp : Nat → Bool) :
    Nat → List ValidEntry → List ResponseRow
  | _, [] => []
  | i, r :: rs =>
      (if failResp i then [] else [mkResponseRow surveyId (respId i) r]) ++
      insertedRows surveyId respId failResp (i + 1) rs

/-- Test of whether any entry from index `i` on has a failing INSERT. -/
def anyFailFrom (failResp : Nat → Bool) : Nat → List ValidEntry → Bool
  | _, [] => false
  | i, _ :: rs => failResp i || anyFailFrom failResp (i + 1) rs

/-- HTTP outcome of the `POST /api/surveys` handler. -/
inductive SubmitResult where
  | validationFailed (details : List ValErr)
  | databaseError
  | success (surveyId : String)
deriving Repr

/-- Post-validation part of the `POST /api/surveys` handler.  `surveyId` is
the fresh `uuidv4()`, `now` the `new Date().toISOString()` value, `respId`
the per-entry fresh response ids.  If the header INSERT fails the handler
answers 500 with the store unchanged.  Otherwise the header row is
persisted and one INSERT is issued per response entry: the handler answers
500 as soon as any of them fails and 200 only when all succeed, but each
successful INSERT persists its row regardless of other entries' failures.
The handler is only reached with 20 validated entries, so the
empty-`responses` path (where the JS callback counter would never fire) is
not exercised. -/
def submitRun (db : DB) (surveyId now : String) (v : ValidSubmission)
    (respId : Nat → String) (failHeader : Bool) (failResp : Nat → Bool) :
    SubmitResult × DB :=
  if failHeader then
    (.databaseError, db)
  else
    let header : SurveyRow :=
      ⟨surveyId, v.patientId, v.studyId, completedAtOf v.metadata now,
        metadataJson v.metadata⟩
    let rows := insertedRows surveyId respId failResp 0 v.responses
    let outcome :=
      if anyFailFrom failResp 0 v.responses then SubmitResult.databaseError
      else SubmitResult.success surveyId
    (outcome, ⟨db.surveys ++ [header], db.responses ++ rows⟩)

/-- The full `POST /api/surveys` handler: validate, answer 400 on a
validation error without touching the store, otherwise run the inserts. -/
def postSurveys (db : DB) (p : Payload) (surveyId now : String)
    (respId : Nat → String) (failHeader : Bool) (failResp : Nat → Bool) :
    SubmitResult × DB :=
  match surveySchemaValidate p with
  | .error es => (.validationFailed es, db)
  | .ok v => submitRun db surveyId now v respId failHeader failResp

/-- Comparison used by `ORDER BY question_id` in the responses query. -/
def qidLe (a b : ResponseRow) : Prop := a.question_id ≤ b.question_id

instance : DecidableRel qidLe := fun a b =>
  inferInstanceAs (Decidable (a.question_id ≤ b.question_id))

instance : IsTotal ResponseRow qidLe := ⟨fun a b => le_total a.question_id b.question_id⟩

instance : IsTrans ResponseRow qidLe := ⟨fun _ _ _ h h' => le_trans h h'⟩

/-- Comparison used by `ORDER BY completed_at DESC`: SQLite compares the
TEXT column with binary collation, i.e. lexicographically, so the ISO
timestamps sort most-recent-first under the flipped string order. -/
def completedDesc (a b : SurveyRow) : Prop := b.completed_at ≤ a.completed_at

instance : DecidableRel completedDesc := fun a b =>
  inferInstanceAs (Decidable (b.completed_at ≤ a.completed_at))

instance : IsTotal SurveyRow completedDesc := ⟨fun a b => le_total b.completed_at a.completed_at⟩

instance : IsTrans SurveyRow completedDesc := ⟨fun _ _ _ h h' => le_trans h' h⟩

/-- Outcome of the `GET /api/surveys/:surveyId` handler.  The store model
injects no read failures, so the 500 branch of the handler (a `db.get` or
`db.all` error) is unreachable and the result is either the data or 404. -/
inductive GetByIdResult where
  | notFound
  | ok (survey : SurveyRow) (responses : List ResponseRow)
deriving Repr

/-- The `GET /api/surveys/:surveyId` handler: look the header row up
(`SELECT * FROM surveys WHERE survey_id = ?`; 404 when absent), then fetch
the survey's responses `ORDER BY question_id`.  The handler parses the
`metadata` and `answer` columns back from their stored text; in the model
the structured `answer` is stored directly (see `ResponseRow`). -/
def getById (db : DB) (sid : String) : GetByIdResult :=
  match db.surveys.find? (fun s => s.survey_id == sid) with
  | none => .notFound
  | some s =>
      .ok s (List.insertionSort qidLe (db.responses.filter (fun r => r.survey_id == sid)))

/-- One element of the `surveys` array returned by
`GET /api/studies/:studyId/surveys`: the survey row joined with its
`COUNT(r.response_id) as response_count`. -/
structure AnnotatedSurvey where
  row : SurveyRow
  response_count : Nat
deriving Repr

/-- Result of the `GET /api/studies/:studyId/surveys` handler. -/
structure ListResult where
  surveys : List AnnotatedSurvey
  page : Nat
  limit : Nat
  hasMore : Bool
deriving Repr

/-- The `GET /api/studies/:studyId/surveys` handler: the study's surveys
ordered by `completed_at DESC`, window `LIMIT limit OFFSET (page-1)*limit`,
each row annotated with its response count from the grouped LEFT JOIN;
`hasMore` is `rows.length === parseInt(limit)`. -/
def listByStudy (db : DB) (studyId : String) (page limit : Nat) : ListResult :=
  let sorted := List.insertionSort completedDesc
    (db.surveys.filter (fun s => s.study_id == studyId))
  let pageRows := (sorted.drop ((page - 1) * limit)).take limit
  let ann := pageRows.map (fun s =>
    ⟨s, (db.responses.filter (fun r => r.survey_id == s.survey_id)).length⟩)
  ⟨ann, page, limit, ann.length == limit⟩

/-- Denormalized rows of the export query: the study's surveys ordered by
`completed_at DESC`, each paired with its responses ordered by
`question_id ASC`; a survey with no responses contributes a single
LEFT JOIN row whose response side is NULL.  (When two surveys share a
`completed_at` value the SQL order may interleave them; the model fixes one
of the admissible orders.) -/
def exportRows (db : DB) (studyId : String) : List (SurveyRow × Option ResponseRow) :=
  (List.insertionSort completedDesc
    (db.surveys.filter (fun s => s.study_id == studyId))).flatMap fun s =>
      match List.insertionSort qidLe
        (db.responses.filter (fun r => r.survey_id == s.survey_id)) with
      | [] => [(s, none)]
      | r :: rs => (r :: rs).map (fun r' => (s, some r'))

/-- The CSV header list of the export handler, in source order.  The
`metadata` column is fetched by the query but is not among the headers. -/
def csvHeaders : List String :=
  ["survey_id", "patient_id", "study_id", "completed_at",
   "question_id", "question_text", "answer", "response_type"]

/-- Cell text of the `answer` column before quoting: the stored text is
parsed back (`JSON.parse(value)`), then arrays (`typeof value === 'object'`)
are re-serialized with `JSON.stringify` while scalars go through JS
`String(...)` coercion.  A NULL answer from a response-less LEFT JOIN row
follows the same path and renders as `null`. -/
def answerCell (a : Option JsonVal) : String :=
  match a with
  | none => "null"
  | some v =>
    match v with
    | .arr xs => stringify (.arr xs)
    | .str s => s
    | .num n => toString n
    | .bool b => if b then "true" else "false"
    | .null => "null"

/-- Cell text (before quoting) of each of the eight headed columns for one
export row.  Response-side columns of a NULL LEFT JOIN row coerce to the JS
string `"null"` via `String(null)`. -/
def rowCells (row : SurveyRow × Option ResponseRow) : List String :=
  [row.1.survey_id, row.1.patient_id, row.1.study_id, row.1.completed_at,
   (match row.2 with | none => "null" | some r => toString r.question_id),
   (match row.2 with | none => "null" | some r => r.question_text),
   answerCell (row.2.map (·.answer)),
   (match row.2 with | none => "null" | some r => r.response_type)]

/-- Quote-escaping of one CSV cell body:
`String(value).replace(/"/g, '""')` doubles every internal quote. -/
def escQuotes : List Char → List Char
  | [] => []
  | c :: cs => if c = '"' then '"' :: '"' :: escQuotes cs else c :: escQuotes cs

/-- Characters of one emitted CSV data line: each cell wrapped in quotes
with internal quotes doubled, cells joined by commas
(`values.join(',')` over `"${String(value).replace(/"/g, '""')}"`). -/
def csvLineChars : List String → List Char
  | [] => []
  | [c] => '"' :: (escQuotes c.data ++ ['"'])
  | c :: c' :: cs => '"' :: (escQuotes c.data ++ '"' :: ',' :: csvLineChars (c' :: cs))

/-- One emitted CSV data line as a string. -/
def csvLine (cells : List String) : String := String.mk (csvLineChars cells)

/-- The CSV header line: `headers.join(',')` (headers are not quoted). -/
def csvHeaderLine : String := String.intercalate "," csvHeaders

/-- All data lines of the CSV export for one study. -/
def csvBodyLines (db : DB) (studyId : String) : List String :=
  (exportRows db studyId).map (fun row => csvLine (rowCells row))

/-- The full CSV document of `GET /api/studies/:studyId/export?format=csv`:
header line plus one newline-terminated data line per export row. -/
def csvExport (db : DB) (studyId : String) : String :=
  csvHeaderLine ++ "\n" ++ String.join ((csvBodyLines db studyId).map (· ++ "\n"))

/-- One element of the `data` array of the JSON export
(`res.json({ data: rows })`): the raw query row, serialized into the JSON
response document.  The `answer` column is NOT parsed on this path, so the
`answer` property of the document is a JSON string node holding the stored
serialized text (or null for a response-less LEFT JOIN row). -/
structure ExportJsonRow where
  survey_id : JsonVal
  patient_id : JsonVal
  study_id : JsonVal
  completed_at : JsonVal
  metadata : JsonVal
  question_id : JsonVal
  question_text : JsonVal
  answer : JsonVal
  response_type : JsonVal
deriving Repr

/-- The `data` array of `GET /api/studies/:studyId/export` in the default
`json` format. -/
def exportJson (db : DB) (studyId : String) : List ExportJsonRow :=
  (exportRows db studyId).map fun row =>
    ⟨.str row.1.survey_id, .str row.1.patient_id, .str row.1.study_id,
     .str row.1.completed_at, .str row.1.metadata,
     (match row.2 with | none => .null | some r => .num r.question_id),
     (match row.2 with | none => .null | some r => .str r.question_text),
     (match row.2 with | none => .null | some r => .str (stringify r.answer)),
     (match row.2 with | none => .null | some r => .str r.response_type)⟩

/-- Reader of one quoted CSV field body per RFC 4180: a doubled quote is a
literal quote, a single quote closes the field.  Returns the field body and
the characters after the closing quote.  This is the reference reading
discipline the spec appeals to with standard CSV escaping; it is used to
state that emitted lines are read back as the intended cells. -/
def readQuoted : List Char → Option (List Char × List Char)
  | [] => none
  | c :: cs =>
    if c = '"' then
      match cs with
      | c2 :: cs2 =>
        if c2 = '"' then
          match readQuoted cs2 with
          | none => none
          | some (f, rest) => some ('"' :: f, rest)
        else some ([], cs)
      | [] => some ([], cs)
    else
      match readQuoted cs with
      | none => none
      | some (f, rest) => some (c :: f, rest)

/-- Fuelled splitter of one CSV line into its fields: each field must be
quoted, fields are separated by commas. -/
def splitFieldsAux : Nat → List Char → Option (List String)
  | 0, _ => none
  | fuel + 1, chars =>
    match chars with
    | [] => none
    | c :: cs =>
      if c = '"' then
        match readQuoted cs with
        | none => none
        | some (f, rest) =>
          match rest with
          | [] => some [String.mk f]
          | c2 :: more =>
            if c2 = ',' then
              match splitFieldsAux fuel more with
              | none => none
              | some fs => some (String.mk f :: fs)
            else none
      else none

/-- Standard CSV reading of one line into its cells. -/
def splitCSVLine (line : String) : Option (List String) :=
  splitFieldsAux (line.length + 1) line.data

/-- Projection of a stored response row to the content tuple the spec
compares: (question index, question text, answer, response type). -/
def projResponseRow (r : ResponseRow) : Int × String × JsonVal × String :=
  (r.question_id, r.question_text, r.answer, r.response_type)

/-- Projection of a submitted response entry to the same content tuple. -/
def projEntry (e : ValidEntry) : Int × String × JsonVal × String :=
  (e.questionId, e.question, e.answer, e.responseType)

/-! ### Concrete test data -/

/-- A well-formed payload entry with question index `i` and response-type
tag `t`. -/
def uniformEntry (t : String) (i : Int) : EntryPayload :=
  ⟨some i, some ("Q" ++ toString i), some (.num i), some t⟩

/-- A 20-entry submission payload with question indices 1..20, all entries
tagged `t`. -/
def uniformPayload (t : String) : Payload :=
  ⟨some "P1", some "S1",
   some ((List.range 20).map (fun i => uniformEntry t (Int.ofNat i + 1))), none⟩

/-- A 19-entry but otherwise well-formed submission payload. -/
def shortPayload : Payload :=
  ⟨some "P1", some "S1",
   some ((List.range 19).map (fun i => uniformEntry "scale" (Int.ofNat i + 1))), none⟩

/-- A 20-entry, otherwise well-formed payload in which question index 1
appears twice (indices 1, 1, 2, ..., 19). -/
def dupPayload : Payload :=
  ⟨some "P1", some "S1",
   some (uniformEntry "scale" 1 ::
     (List.range 19).map (fun i => uniformEntry "scale" (Int.ofNat i + 1))), none⟩

/-- A payload with well-formed responses but missing `patientId` AND
missing `studyId`: two distinct failing fields. -/
def noIdsPayload : Payload :=
  ⟨none, none,
   some ((List.range 20).map (fun i => uniformEntry "scale" (Int.ofNat i + 1))), none⟩

/-- A well-formed payload whose metadata block carries a `completedAt`
timestamp. -/
def mdPayload : Payload :=
  ⟨some "P1", some "S1",
   some ((List.range 20).map (fun i => uniformEntry "scale" (Int.ofNat i + 1))),
   some ⟨some "2023-05-06T07:08:09Z", some "tablet", none⟩⟩

/-- Deterministic stand-ins for the per-response `uuidv4()` values. -/
def sampleRespId (i : Nat) : String := "r-" ++ toString i

/-- A stored survey used by the export counterexample. -/
def demoSurvey : SurveyRow := ⟨"sv1", "P1", "S1", "2024-01-02T03:04:05Z", "\x7b\x7d"⟩

/-- A stored response whose answer is the list `["a","b"]`. -/
def demoResponse : ResponseRow :=
  ⟨"r1", "sv1", 1, "Pick letters", .arr [.str "a", .str "b"], "multiple_choice"⟩

/-- A store holding `demoSurvey` with its one response. -/
def demoDB : DB := ⟨[demoSurvey], [demoResponse]⟩

/-! ### Lemmas about the validator -/

theorem validate_ok_parts {p : Payload} {v : ValidSubmission}
    (h : surveySchemaValidate p = .ok v) :
    checkPatientId p = [] ∧ checkStudyId p = [] ∧ checkResponses p = [] ∧
      checkMetadata p = [] ∧ v = mkValid p := by
  unfold surveySchemaValidate at h
  cases h1 : checkPatientId p with
  | cons e tl => rw [h1] at h; exact absurd h (by simp)
  | nil =>
  rw [h1] at h
  cases h2 : checkStudyId p with
  | cons e tl => rw [h2] at h; exact absurd h (by simp)
  | nil =>
  rw [h2] at h
  cases h3 : checkResponses p with
  | cons e tl => rw [h3] at h; exact absurd h (by simp)
  | nil =>
  rw [h3] at h
  cases h4 : checkMetadata p with
  | cons e tl => rw [h4] at h; exact absurd h (by simp)
  | nil =>
  rw [h4] at h
  simp only [Except.ok.injEq] at h
  exact ⟨rfl, rfl, rfl, rfl, h.symm⟩

theorem checkResponses_nil {p : Payload} (h : checkResponses p = []) :
    ∃ rs, p.responses = some rs ∧ entryErrorsFrom 0 rs = [] ∧ rs.length = 20 := by
  unfold checkResponses at h
  cases hr : p.responses with
  | none => rw [hr] at h; simp at h
  | some rs =>
    rw [hr] at h
    rcases List.append_eq_nil.mp h with ⟨h1, h2⟩
    refine ⟨rs, rfl, h1, ?_⟩
    by_contra hlen
    rw [if_neg hlen] at h2
    simp at h2

theorem entryErrorsFrom_nil {rs : List EntryPayload} :
    ∀ {i : Nat}, entryErrorsFrom i rs = [] → ∀ e ∈ rs, ∃ j, entryErrors j e = [] := by
  induction rs with
  | nil => intro i _ e he; cases he
  | cons a as ih =>
    intro i h e he
    unfold entryErrorsFrom at h
    rcases List.append_eq_nil.mp h with ⟨h1, h2⟩
    rcases List.mem_cons.mp he with rfl | he'
    · exact ⟨i, h1⟩
    · exact ih h2 e he'

theorem entryErrors_nil_responseType {j : Nat} {e : EntryPayload}
    (h : entryErrors j e = []) :
    ∃ t, e.responseType = some t ∧ t ∈ allowedResponseTypes := by
  unfold entryErrors at h
  simp only [List.append_eq_nil] at h
  have h4 := h.2
  cases ht : e.responseType with
  | none => rw [ht] at h4; simp at h4
  | some t =>
    rw [ht] at h4
    refine ⟨t, rfl, ?_⟩
    by_contra hmem
    simp [hmem] at h4

theorem validate_error_take {p : Payload} {es : List ValErr}
    (h : surveySchemaValidate p = .error es) :
    es = (allViolations p).take 1 ∧ allViolations p ≠ [] := by
  unfold surveySchemaValidate at h
  unfold allViolations
  cases h1 : checkPatientId p with
  | cons e tl =>
    rw [h1] at h
    simp only [Except.error.injEq] at h
    subst h
    simp
  | nil =>
  rw [h1] at h
  cases h2 : checkStudyId p with
  | cons e tl =>
    rw [h2] at h
    simp only [Except.error.injEq] at h
    subst h
    simp [h1]
  | nil =>
  rw [h2] at h
  cases h3 : checkResponses p with
  | cons e tl =>
    rw [h3] at h
    simp only [Except.error.injEq] at h
    subst h
    simp [h1, h2]
  | nil =>
  rw [h3] at h
  cases h4 : checkMetadata p with
  | cons e tl =>
    rw [h4] at h
    simp only [Except.error.injEq] at h
    subst h
    simp [h1, h2, h3]
  | nil =>
  rw [h4] at h
  exact absurd h (by simp)

/-! ### Lemmas about CSV quoting -/

theorem stringMk_data (s : String) : String.mk s.data = s := rfl

theorem readQuoted_escQuotes (s : List Char) (rest : List Char)
    (h : rest.head? ≠ some '"') :
    readQuoted (escQuotes s ++ '"' :: rest) = some (s, rest) := by
  induction s with
  | nil =>
    cases rest with
    | nil => simp [escQuotes, readQuoted]
    | cons c cs =>
      have hc : c ≠ '"' := by
        intro hh
        exact h (by simp [hh])
      simp [escQuotes, readQuoted, hc]
  | cons c cs ih =>
    by_cases hc : c = '"'
    · subst hc
      simp only [escQuotes, if_pos rfl, List.cons_append]
      simp [readQuoted, ih]
    · simp only [escQuotes, if_neg hc, List.cons_append]
      rw [readQuoted.eq_def]
      simp [hc, ih]

theorem splitFieldsAux_csvLineChars :
    ∀ (cells : List String) (fuel : Nat), cells ≠ [] → cells.length ≤ fuel →
      splitFieldsAux fuel (csvLineChars cells) = some cells
  | [], _, h, _ => absurd rfl h
  | [c], fuel, _, hf => by
    cases fuel with
    | zero => exact absurd hf (by simp)
    | succ f =>
      have hr := readQuoted_escQuotes c.data [] (by simp)
      simp [csvLineChars, splitFieldsAux, hr, stringMk_data]
  | c :: c' :: cs, fuel, _, hf => by
    cases fuel with
    | zero => exact absurd hf (by simp)
    | succ f =>
      have hr := readQuoted_escQuotes c.data (',' :: csvLineChars (c' :: cs)) (by simp)
      have ih := splitFieldsAux_csvLineChars (c' :: cs) f (by simp)
        (by simpa using Nat.lt_succ_iff.mp (by simpa using hf))
      simp [csvLineChars, splitFieldsAux, hr, ih, stringMk_data]

theorem length_le_csvLineChars : ∀ cells : List String,
    cells.length ≤ (csvLineChars cells).length
  | [] => by simp [csvLineChars]
  | [c] => by simp [csvLineChars]
  | c :: c' :: cs => by
    have ih := length_le_csvLineChars (c' :: cs)
    simp only [csvLineChars, List.length_cons, List.length_append] at ih ⊢
    omega

theorem splitCSVLine_csvLine (cells : List String) (h : cells ≠ []) :
    splitCSVLine (csvLine cells) = some cells := by
  have h2 := length_le_csvLineChars cells
  exact splitFieldsAux_csvLineChars cells ((csvLineChars cells).length + 1) h (by omega)

/-! ### Lemmas about the submit handler's inserts -/

theorem insertedRows_survey_id {sid : String} {rid : Nat → String} {fr : Nat → Bool} :
    ∀ {i : Nat} {rs : List ValidEntry} {r : ResponseRow},
      r ∈ insertedRows sid rid fr i rs → r.survey_id = sid := by
  intro i rs
  induction rs generalizing i with
  | nil => intro r hr; simp [insertedRows] at hr
  | cons a as ih =>
    intro r hr
    unfold insertedRows at hr
    rcases List.mem_append.mp hr with hl | hr'
    · by_cases hfi : fr i
      · rw [if_pos hfi] at hl; cases hl
      · rw [if_neg hfi] at hl
        rcases List.mem_singleton.mp hl with rfl
        rfl
    · exact ih hr'

theorem insertedRows_noFail_map (sid : String) (rid : Nat → String) :
    ∀ (i : Nat) (rs : List ValidEntry),
      (insertedRows sid rid (fun _ => false) i rs).map projResponseRow =
        rs.map projEntry := by
  intro i rs
  induction rs generalizing i with
  | nil => simp [insertedRows]
  | cons a as ih => simp [insertedRows, ih, mkResponseRow, projResponseRow, projEntry]

theorem anyFailFrom_false : ∀ (i : Nat) (rs : List ValidEntry),
    anyFailFrom (fun _ => false) i rs = false := by
  intro i rs
  induction rs generalizing i with
  | nil => rfl
  | cons a as ih => simp [anyFailFrom, ih]

/-- Shared decomposition: a fully successful submit followed by `getById`
on the fresh identifier returns the freshly written header row and the
sorted fresh response rows, provided the identifier is fresh for the
pre-state. -/
theorem getById_submitRun (db : DB) (v : ValidSubmission) (sid now : String)
    (rid : Nat → String)
    (hsur : ∀ s ∈ db.surveys, s.survey_id ≠ sid)
    (hres : ∀ r ∈ db.responses, r.survey_id ≠ sid) :
    getById (submitRun db sid now v rid false (fun _ => false)).2 sid =
      .ok ⟨sid, v.patientId, v.studyId, completedAtOf v.metadata now, metadataJson v.metadata⟩
        (List.insertionSort qidLe
          (insertedRows sid rid (fun _ => false) 0 v.responses)) := by
  have hdb : (submitRun db sid now v rid false (fun _ => false)).2 =
      ⟨db.surveys ++
        [⟨sid, v.patientId, v.studyId, completedAtOf v.metadata now, metadataJson v.metadata⟩],
       db.responses ++ insertedRows sid rid (fun _ => false) 0 v.responses⟩ := by
    simp [submitRun]
  rw [hdb]
  unfold getById
  have hfind : (db.surveys ++
      [(⟨sid, v.patientId, v.studyId, completedAtOf v.metadata now,
        metadataJson v.metadata⟩ : SurveyRow)]).find?
        (fun s => s.survey_id == sid) =
      some ⟨sid, v.patientId, v.studyId, completedAtOf v.metadata now,
        metadataJson v.metadata⟩ := by
    rw [List.find?_append]
    have hnone : db.surveys.find? (fun s => s.survey_id == sid) = none :=
      List.find?_eq_none.mpr (fun s hs => by simp [hsur s hs])
    rw [hnone]
    simp [List.find?]
  rw [hfind]
  have hfilter : (db.responses ++
      insertedRows sid rid (fun _ => false) 0 v.responses).filter
        (fun r => r.survey_id == sid) =
      insertedRows sid rid (fun _ => false) 0 v.responses := by
    rw [List.filter_append]
    have h1 : db.responses.filter (fun r => r.survey_id == sid) = [] :=
      List.filter_eq_nil_iff.mpr (fun r hr => by simp [hres r hr])
    have h2 : (insertedRows sid rid (fun _ => false) 0 v.responses).filter
        (fun r => r.survey_id == sid) =
        insertedRows sid rid (fun _ => false) 0 v.responses :=
      List.filter_eq_self.mpr (fun r hr => by simp [insertedRows_survey_id hr])
    rw [h1, h2, List.nil_append]
  rw [hfilter]

/-! ### Claim theorems -/

/-- C8: `getById` answers NotFound exactly when no stored survey row
carries the requested identifier, and for a stored identifier it never
answers NotFound.  The store model injects no read failures, so the
handler's 500 branch (a `db.get`/`db.all` error callback) is unreachable
and a nonexistent identifier can only produce the 404 answer. -/
theorem c8_getById_notFound_iff (db : DB) (sid : String) :
    getById db sid = .notFound ↔ ∀ s ∈ db.surveys, s.survey_id ≠ sid := by
  cases h : db.surveys.find? (fun s => s.survey_id == sid) with
  | none =>
    simp only [getById, h]
    constructor
    · intro _ s hs
      simpa using List.find?_eq_none.mp h s hs
    · intro _
      trivial
  | some s =>
    simp only [getById, h]
    constructor
    · intro habs
      exact absurd habs (by simp)
    · intro hall
      exact absurd (by simpa using List.find?_some h) (hall s (List.mem_of_find?_eq_some h))

/-- C7: `listByStudy` returns a window of the study's surveys ordered by
completion time descending, each annotated with its response count, and
`hasMore` holds exactly when the returned page is exactly `limit` long. -/
theorem c7_listByStudy_spec (db : DB) (studyId : String) (page limit : Nat) :
    List.Sorted completedDesc
      ((listByStudy db studyId page limit).surveys.map (fun a => a.row)) ∧
    (∀ a ∈ (listByStudy db studyId page limit).surveys,
      a.row.study_id = studyId ∧
      a.response_count =
        (db.responses.filter (fun r => r.survey_id == a.row.survey_id)).length) ∧
    ((listByStudy db studyId page limit).hasMore = true ↔
      (listByStudy db studyId page limit).surveys.length = limit) := by
  refine ⟨?_, ?_, ?_⟩
  · have hmap : (listByStudy db studyId page limit).surveys.map (fun a => a.row) =
        ((List.insertionSort completedDesc
          (db.surveys.filter (fun s => s.study_id == studyId))).drop
            ((page - 1) * limit)).take limit := by
      simp [listByStudy, List.map_map, Function.comp_def]
    rw [hmap]
    exact List.Pairwise.sublist
      ((List.take_sublist _ _).trans (List.drop_sublist _ _))
      (List.sorted_insertionSort completedDesc _)
  · intro a ha
    simp only [listByStudy, List.mem_map] at ha
    rcases ha with ⟨s, hs, rfl⟩
    have hs2 : s ∈ List.insertionSort completedDesc
        (db.surveys.filter (fun s => s.study_id == studyId)) :=
      ((List.take_sublist _ _).trans (List.drop_sublist _ _)).subset hs
    have hs3 : s ∈ db.surveys.filter (fun s => s.study_id == studyId) :=
      (List.perm_insertionSort completedDesc _).subset hs2
    exact ⟨by simpa using (List.mem_filter.mp hs3).2, rfl⟩
  · simp [listByStudy]

/-- C2: a fully successful submit of a validated submission with pairwise
distinct question indices, followed by `getById` on the returned
identifier, answers 200 with the identifier, and the fetched response rows
are in ascending question-index order with (question index, question text,
answer, response type) tuples forming a permutation of the submitted ones.
The freshness hypotheses model `uuidv4()` uniqueness of the new survey
identifier. -/
theorem c2_submit_then_getById (db : DB) (p : Payload) (v : ValidSubmission)
    (sid now : String) (rid : Nat → String)
    (hval : surveySchemaValidate p = .ok v)
    (_hnodup : (v.responses.map (fun e => e.questionId)).Nodup)
    (hsur : ∀ s ∈ db.surveys, s.survey_id ≠ sid)
    (hres : ∀ r ∈ db.responses, r.survey_id ≠ sid) :
    ∃ s rs,
      (postSurveys db p sid now rid false (fun _ => false)).1 = .success sid ∧
      getById (postSurveys db p sid now rid false (fun _ => false)).2 sid = .ok s rs ∧
      List.Sorted qidLe rs ∧
      List.Perm (rs.map projResponseRow) (v.responses.map projEntry) ∧
      rs.length = 20 := by
  have hpost : postSurveys db p sid now rid false (fun _ => false) =
      submitRun db sid now v rid false (fun _ => false) := by
    simp [postSurveys, hval]
  refine ⟨⟨sid, v.patientId, v.studyId, completedAtOf v.metadata now, metadataJson v.metadata⟩,
    List.insertionSort qidLe (insertedRows sid rid (fun _ => false) 0 v.responses),
    ?_, ?_, ?_, ?_, ?_⟩
  · rw [hpost]
    simp [submitRun, anyFailFrom_false]
  · rw [hpost]
    exact getById_submitRun db v sid now rid hsur hres
  · exact List.sorted_insertionSort qidLe _
  · have h1 : List.Perm ((List.insertionSort qidLe
        (insertedRows sid rid (fun _ => false) 0 v.responses)).map projResponseRow)
        ((insertedRows sid rid (fun _ => false) 0 v.responses).map projResponseRow) :=
      (List.perm_insertionSort qidLe _).map projResponseRow
    rw [insertedRows_noFail_map sid rid 0 v.responses] at h1
    exact h1
  · have hlen1 : (List.insertionSort qidLe
        (insertedRows sid rid (fun _ => false) 0 v.responses)).length =
        (insertedRows sid rid (fun _ => false) 0 v.responses).length :=
      (List.perm_insertionSort qidLe _).length_eq
    have hlen0 : (insertedRows sid rid (fun _ => false) 0 v.responses).length =
        v.responses.length := by
      have h2 := congrArg List.length (insertedRows_noFail_map sid rid 0 v.responses)
      simpa using h2
    obtain ⟨-, -, hcr, -, hv⟩ := validate_ok_parts hval
    obtain ⟨rs0, hrs0, -, hlen20⟩ := checkResponses_nil hcr
    rw [hlen1, hlen0, hv]
    simp [mkValid, hrs0, hlen20]

/-- C9 counterexample: a submission whose metadata carries
`completedAt = "2023-05-06T07:08:09Z"` does not store that value: Joi's
`date().iso()` conversion produces a Date object, node-sqlite3 binds it as
an epoch-milliseconds REAL, and the TEXT-affinity column stores the
numeric text `1683356889000.0`, so the claim's "that value is stored
instead" fails at the observable level. -/
theorem c9_counterexample :
    mdPayload.metadata.bind (fun m => m.completedAt) = some "2023-05-06T07:08:09Z" ∧
    (postSurveys emptyDB mdPayload "sv2" "NOW" sampleRespId
      false (fun _ => false)).2.surveys.map (fun s => s.completed_at) =
      ["1683356889000.0"] ∧
    "1683356889000.0" ≠ "2023-05-06T07:08:09Z" :=
  ⟨rfl, rfl, by decide⟩

/-- C9 amended: when the optional metadata block is absent or omits
`completedAt`, the stored completion time is the request-time server
timestamp (the `now` argument, `new Date().toISOString()` in the handler)
verbatim; when `completedAt` is present, what is stored is the
epoch-milliseconds numeric text of the parsed timestamp (node-sqlite3
binds the Joi-converted Date as a REAL, rendered by the TEXT-affinity
column), not the submitted ISO string.  Observed through `getById` on the
fresh identifier after a fully successful submit. -/
theorem c9_completedAt_stored (db : DB) (p : Payload) (v : ValidSubmission)
    (sid now : String) (rid : Nat → String)
    (hval : surveySchemaValidate p = .ok v)
    (hsur : ∀ s ∈ db.surveys, s.survey_id ≠ sid)
    (hres : ∀ r ∈ db.responses, r.survey_id ≠ sid) :
    ∃ s rs,
      getById (postSurveys db p sid now rid false (fun _ => false)).2 sid = .ok s rs ∧
      ((v.metadata = none ∨ ∃ m, v.metadata = some m ∧ m.completedAt = none) →
        s.completed_at = now) ∧
      (∀ m t ms, v.metadata = some m → m.completedAt = some t → isoToMs t = some ms →
        s.completed_at = toString ms ++ ".0") := by
  have hpost : postSurveys db p sid now rid false (fun _ => false) =
      submitRun db sid now v rid false (fun _ => false) := by
    simp [postSurveys, hval]
  refine ⟨⟨sid, v.patientId, v.studyId, completedAtOf v.metadata now, metadataJson v.metadata⟩,
    List.insertionSort qidLe (insertedRows sid rid (fun _ => false) 0 v.responses),
    ?_, ?_, ?_⟩
  · rw [hpost]
    exact getById_submitRun db v sid now rid hsur hres
  · intro hcase
    rcases hcase with hnone | ⟨m, hm, hc⟩
    · simp [completedAtOf, hnone]
    · simp [completedAtOf, hm, hc]
  · intro m t ms hm ht hms
    simp [completedAtOf, hm, ht, hms, sqliteRealText]

/-- C1: evaluation of the submit handler at a valid 20-response submission
with an injected INSERT failure on response row 20 (index 19), starting
from an empty store.  The handler reports a single database error, but the
survey header row and the 19 successful response rows remain persisted:
there is no transaction and no rollback, contradicting the all-or-nothing
guarantee. -/
theorem c1_partial_failure_persists :
    (postSurveys emptyDB (uniformPayload "scale") "sv1" "NOW" sampleRespId
      false (fun i => i == 19)).1 = .databaseError ∧
    (postSurveys emptyDB (uniformPayload "scale") "sv1" "NOW" sampleRespId
      false (fun i => i == 19)).2.surveys.length = 1 ∧
    (postSurveys emptyDB (uniformPayload "scale") "sv1" "NOW" sampleRespId
      false (fun i => i == 19)).2.responses.length = 19 :=
  ⟨rfl, rfl, rfl⟩

/-- C3 counterexample: a 20-entry, otherwise valid payload whose question
index 1 appears twice passes `surveySchema` validation (the Joi schema has
no uniqueness rule on `questionId`) and the submit handler persists a new
survey row, contradicting the claim that a duplicate question index fails
validation with no write performed. -/
theorem c3_counterexample :
    ¬ (((dupPayload.responses.getD []).map (fun e => e.questionId)).Nodup) ∧
    (surveySchemaValidate dupPayload).isOk = true ∧
    emptyDB.surveys.length = 0 ∧
    (postSurveys emptyDB dupPayload "sv1" "NOW" sampleRespId
      false (fun _ => false)).2.surveys.length = 1 := by
  refine ⟨by decide, rfl, rfl, rfl⟩

/-- C3 amended: a payload whose `responses` list is absent or has a length
other than 20 fails validation (HTTP 400) and the handler performs no
database write, whatever the failure schedule of the never-reached INSERT
phase.  (The duplicate-question-index half of the original claim is false:
see the counterexample.) -/
theorem c3_length_gate (db : DB) (p : Payload) (sid now : String)
    (rid : Nat → String) (fh : Bool) (fr : Nat → Bool)
    (h : p.responses.map List.length ≠ some 20) :
    (∃ es, (postSurveys db p sid now rid fh fr).1 = .validationFailed es) ∧
    (postSurveys db p sid now rid fh fr).2 = db := by
  cases hv : surveySchemaValidate p with
  | ok v =>
    obtain ⟨-, -, hcr, -, -⟩ := validate_ok_parts hv
    obtain ⟨rs0, hrs0, -, hlen20⟩ := checkResponses_nil hcr
    exact absurd (by rw [hrs0]; simpa using hlen20) h
  | error es =>
    constructor
    · exact ⟨es, by simp [postSurveys, hv]⟩
    · simp [postSurveys, hv]

/-- C3 amended, witness at a concrete 19-entry payload. -/
theorem c3_length_gate_witness :
    (∃ es, (postSurveys emptyDB shortPayload "sv1" "NOW" sampleRespId
      false (fun _ => false)).1 = .validationFailed es) ∧
    (postSurveys emptyDB shortPayload "sv1" "NOW" sampleRespId
      false (fun _ => false)).2 = emptyDB :=
  c3_length_gate emptyDB shortPayload "sv1" "NOW" sampleRespId
    false (fun _ => false) (by decide)

/-- C4 counterexample: a payload missing both `patientId` and `studyId`
violates the contract in two fields, yet `surveySchema.validate` reports
only the first one — Joi's default `abortEarly: true` stops at the first
error, contradicting the claim that every failing field is enumerated. -/
theorem c4_counterexample :
    allViolations noIdsPayload = [ValErr.patientIdRequired, ValErr.studyIdRequired] ∧
    surveySchemaValidate noIdsPayload = .error [ValErr.patientIdRequired] :=
  ⟨rfl, rfl⟩

/-- C4 amended: whenever validation fails, the reported detail list is
exactly the first violation of the full contract-violation enumeration in
schema order, not the whole enumeration. -/
theorem c4_first_error_only (p : Payload) (es : List ValErr)
    (h : surveySchemaValidate p = .error es) :
    es = (allViolations p).take 1 ∧ allViolations p ≠ [] :=
  validate_error_take h

/-- C4 amended, witness at the concrete two-violation payload. -/
theorem c4_first_error_only_witness :
    [ValErr.patientIdRequired] = (allViolations noIdsPayload).take 1 ∧
    allViolations noIdsPayload ≠ [] :=
  c4_first_error_only noIdsPayload [ValErr.patientIdRequired] rfl

/-- C5 counterexample: a 20-entry submission whose entries all carry the
tag `checkbox` — and which passes validation when the tag is replaced by
an allowed one — is rejected by `surveySchema`: the source enumeration has
five members and does not include `checkbox`, contradicting the claim. -/
theorem c5_counterexample :
    (surveySchemaValidate (uniformPayload "checkbox")).isOk = false ∧
    (surveySchemaValidate (uniformPayload "scale")).isOk = true ∧
    "checkbox" ∉ allowedResponseTypes :=
  ⟨rfl, rfl, by decide⟩

/-- C5 amended: the validator only accepts entries whose response-type tag
belongs to the five-member enumeration text, number, boolean, scale,
multiple_choice; every entry of an accepted submission carries one of
those five tags (`checkbox` is rejected: see the counterexample). -/
theorem c5_accepted_tags (p : Payload) (v : ValidSubmission)
    (h : surveySchemaValidate p = .ok v) :
    ∀ e ∈ v.responses, e.responseType ∈ allowedResponseTypes := by
  obtain ⟨-, -, hcr, -, hv⟩ := validate_ok_parts h
  obtain ⟨rs0, hrs0, hent, -⟩ := checkResponses_nil hcr
  subst hv
  intro e he
  simp only [mkValid, hrs0, Option.getD_some, List.mem_map] at he
  rcases he with ⟨e0, he0, rfl⟩
  obtain ⟨j, hj⟩ := entryErrorsFrom_nil hent e0 he0
  obtain ⟨t, ht, htmem⟩ := entryErrors_nil_responseType hj
  simpa [mkValidEntry, ht] using htmem

/-- C5 amended, witness at a concrete accepted submission and its first
entry. -/
theorem c5_accepted_tags_witness :
    (mkValidEntry (uniformEntry "scale" 1)).responseType ∈ allowedResponseTypes :=
  c5_accepted_tags (uniformPayload "scale") (mkValid (uniformPayload "scale")) rfl
    (mkValidEntry (uniformEntry "scale" 1))
    (by
      have h20 : (0 : Nat) ∈ List.range 20 := List.mem_range.mpr (by norm_num)
      have hmem := List.mem_map_of_mem (f := mkValidEntry)
        (List.mem_map_of_mem (f := fun i : Nat => uniformEntry "scale" (Int.ofNat i + 1)) h20)
      simpa [mkValid, uniformPayload] using hmem)

/-- C2, witness at a concrete valid submission against the empty store. -/
theorem c2_submit_then_getById_witness :
    ∃ s rs,
      (postSurveys emptyDB (uniformPayload "scale") "sv1" "NOW" sampleRespId
        false (fun _ => false)).1 = .success "sv1" ∧
      getById (postSurveys emptyDB (uniformPayload "scale") "sv1" "NOW" sampleRespId
        false (fun _ => false)).2 "sv1" = .ok s rs ∧
      List.Sorted qidLe rs ∧
      List.Perm (rs.map projResponseRow)
        ((mkValid (uniformPayload "scale")).responses.map projEntry) ∧
      rs.length = 20 :=
  c2_submit_then_getById emptyDB (uniformPayload "scale")
    (mkValid (uniformPayload "scale")) "sv1" "NOW" sampleRespId
    rfl (by decide) (by simp [emptyDB]) (by simp [emptyDB])

/-- C9 amended, witness at a concrete submission whose metadata carries a
`completedAt` timestamp. -/
theorem c9_completedAt_stored_witness :
    ∃ s rs,
      getById (postSurveys emptyDB mdPayload "sv2" "NOW" sampleRespId
        false (fun _ => false)).2 "sv2" = .ok s rs ∧
      (((mkValid mdPayload).metadata = none ∨
          ∃ m, (mkValid mdPayload).metadata = some m ∧ m.completedAt = none) →
        s.completed_at = "NOW") ∧
      (∀ m t ms, (mkValid mdPayload).metadata = some m → m.completedAt = some t →
        isoToMs t = some ms → s.completed_at = toString ms ++ ".0") :=
  c9_completedAt_stored emptyDB mdPayload (mkValid mdPayload) "sv2" "NOW"
    sampleRespId rfl (by simp [emptyDB]) (by simp [emptyDB])

/-- C6 counterexample: for the demo store whose single stored answer is
the list `["a","b"]`, the JSON export's `answer` field is the JSON string
node holding the stored serialized text — `res.json({ data: rows })`
returns the raw rows without parsing `answer` — and that string node is
not the native JSON array the claim asserts. -/
theorem c6_counterexample :
    (exportJson demoDB "S1").map (fun r => r.answer) = [JsonVal.str "[\"a\",\"b\"]"] ∧
    JsonVal.str "[\"a\",\"b\"]" ≠ JsonVal.arr [.str "a", .str "b"] :=
  ⟨rfl, fun h => JsonVal.noConfusion h⟩

/-- C6 amended: every emitted CSV data line, read back under standard CSV
quoting rules, yields exactly the intended cells — internal quotes are
doubled, and a list answer (re-serialized by `JSON.stringify`) occupies a
single quoted cell and never splits columns; but for JSON export the
`answer` field is the stored serialized string (a JSON string node, or
null for a response-less LEFT JOIN row), not a native JSON value. -/
theorem c6_csv_escaping_json_string (db : DB) (studyId : String)
    (row : SurveyRow × Option ResponseRow) :
    splitCSVLine (csvLine (rowCells row)) = some (rowCells row) ∧
    answerCell (some (JsonVal.arr [.str "a", .str "b"])) = "[\"a\",\"b\"]" ∧
    (∀ jr ∈ exportJson db studyId,
      jr.answer = JsonVal.null ∨ ∃ t, jr.answer = JsonVal.str t) := by
  refine ⟨splitCSVLine_csvLine _ (by simp [rowCells]), rfl, ?_⟩
  intro jr hjr
  simp only [exportJson, List.mem_map] at hjr
  rcases hjr with ⟨r0, hr0, rfl⟩
  cases h2 : r0.2 with
  | none => left; simp [h2]
  | some r => right; exact ⟨stringify r.answer, by simp [h2]⟩

/-- C6 amended, witness at the demo store and its export row. -/
theorem c6_csv_escaping_json_string_witness :
    splitCSVLine (csvLine (rowCells (demoSurvey, some demoResponse))) =
      some (rowCells (demoSurvey, some demoResponse)) ∧
    answerCell (some (JsonVal.arr [.str "a", .str "b"])) = "[\"a\",\"b\"]" ∧
    (∀ jr ∈ exportJson demoDB "S1",
      jr.answer = JsonVal.null ∨ ∃ t, jr.answer = JsonVal.str t) :=
  c6_csv_escaping_json_string demoDB "S1" (demoSurvey, some demoResponse)

/-- C10: the CSV header line is exactly the eight fixed column names in
their source order, `metadata` is not among the headers, every data line
reads back as exactly eight cells, and the data line of a row is unchanged
by any change to the survey's `metadata` column — the metadata fetched by
the export query never appears in the CSV output. -/
theorem c10_csv_columns (db : DB) (studyId : String)
    (s : SurveyRow) (r : Option ResponseRow) (m : String) :
    csvHeaderLine =
      "survey_id,patient_id,study_id,completed_at,question_id,question_text,answer,response_type" ∧
    "metadata" ∉ csvHeaders ∧
    (∀ line ∈ csvBodyLines db studyId,
      ∃ cells, splitCSVLine line = some cells ∧ cells.length = 8) ∧
    csvLine (rowCells ({ s with metadata := m }, r)) = csvLine (rowCells (s, r)) := by
  refine ⟨rfl, by decide, ?_, rfl⟩
  intro line hline
  simp only [csvBodyLines, List.mem_map] at hline
  rcases hline with ⟨row, hrow, rfl⟩
  exact ⟨rowCells row, splitCSVLine_csvLine _ (by simp [rowCells]), by simp [rowCells]⟩

/-- C10, witness at the demo store with a replaced metadata value. -/
theorem c10_csv_columns_witness :
    csvHeaderLine =
      "survey_id,patient_id,study_id,completed_at,question_id,question_text,answer,response_type" ∧
    "metadata" ∉ csvHeaders ∧
    (∀ line ∈ csvBodyLines demoDB "S1",
      ∃ cells, splitCSVLine line = some cells ∧ cells.length = 8) ∧
    csvLine (rowCells ({ demoSurvey with metadata := "SECRET" }, some demoResponse)) =
      csvLine (rowCells (demoSurvey, some demoResponse)) :=
  c10_csv_columns demoDB "S1" demoSurvey (some demoResponse) "SECRET"

end DataSetsRX
